import Mathlib

set_option autoImplicit false

/-!
Shallow embedding of the ember-intl runtime service
(addon services intl.js, 273 lines) for verification.

JS objects with string keys are modelled as association lists in which the
first binding for a key wins; `undefined` is `Option.none`; thrown
assertions and type errors are `Except.error`.  The Ember runloop timers
used by the locale-change notification pipeline are modelled explicitly as
a list of active timer ids plus the stored `_timer` handle.
-/

namespace EmberIntl

/-- Flat translation map for one locale: message key to message pattern
string (a JS object, association list, first binding wins). -/
abbrev Messages := List (String × String)

/-- JS property read `m[key]`: the bound value, or undefined. -/
def Messages.look (m : Messages) (k : String) : Option String :=
  match m with
  | [] => none
  | (k0, v0) :: rest => if k0 = k then some v0 else Messages.look rest k

/-- The service `_messagesMap`: normalized locale name to flat translation
map. -/
abbrev MessagesMap := List (String × Messages)

/-- JS property read `mm[locale]`: the locale's flat map, or undefined. -/
def MessagesMap.look (mm : MessagesMap) (k : String) : Option Messages :=
  match mm with
  | [] => none
  | (k0, v0) :: rest => if k0 = k then some v0 else MessagesMap.look rest k

/-- JS assignment `mm[k] = v`: replaces the existing binding wholesale, or
appends a new one. -/
def MessagesMap.setKey : MessagesMap → String → Messages → MessagesMap
  | [], k, v => [(k, v)]
  | (k0, v0) :: rest, k, v =>
    if k0 = k then (k, v) :: rest else (k0, v0) :: MessagesMap.setKey rest k v

/-- Modelled from the spec: `normalize-locale`
(the -private utils module normalize-locale.js) is repository code not under
src/.  Spec section 4.1: a deterministic, total canonicalization that gives
the same output for inputs differing only in case or separator style;
modelled as lowercasing every character and replacing underscore separators
with dashes. -/
def normalizeLocale (l : String) : String :=
  String.mk (l.data.map (fun c => if c = '_' then '-' else c.toLower))

/-- Modelled from the spec: `is-array-equal`
(the -private utils module is-array-equal.js) is repository code not under
src/.  Spec section 3: element-wise equality of sequences; the stored
`_locale` may still be null, which equals no array. -/
def isArrayEqual (a : List String) : Option (List String) → Bool
  | some b => a == b
  | none => false

/-- Opaque handle for the format-config object (`this.formats`), compared
by identity; it is effectively a singleton per service instance. -/
abbrev Formats := Nat

/-- An engine handle produced by the external `createIntl` constructor.
`engId` is the construction identity (a fresh number per construction, so
reference identity of handles is equality of ids); `engMessages` is the
snapshot of `this._messagesMap[locale]` passed at construction time
(src lines 116-126). -/
structure Engine where
  engId : Nat
  engLocale : String
  engFormats : Formats
  engMessages : Option Messages
deriving DecidableEq, Repr

/-- The memoization cache of the `memoize`-wrapped `createIntl`, keyed by
the argument pair (locale, formats). -/
abbrev EngineCache := List ((String × Formats) × Engine)

/-- Cache lookup for an argument pair. -/
def cacheFind (c : EngineCache) (l : String) (f : Formats) : Option Engine :=
  match c with
  | [] => none
  | ((l0, f0), e) :: rest =>
    if l0 = l ∧ f0 = f then some e else cacheFind rest l f

/-- The whole service state: the active-locale list `_locale` (null before
the first set), the translation store `_messagesMap`, the shared
format-config, the engine cache with its fresh-id counter, and the runloop
state (active timer ids, the stored `_timer` handle, a fresh timer
counter, and the log of fired localeChanged notifications, each carrying
the active locale at fire time). -/
structure ServiceState where
  localeList : Option (List String)
  messagesMap : MessagesMap
  formats : Formats
  intlCache : EngineCache
  nextEngineId : Nat
  timers : List Nat
  timerHandle : Option Nat
  nextTimer : Nat
  fired : List (List String)
deriving DecidableEq, Repr

/-- A fresh service state (no locale set, empty store, empty cache). -/
def emptyState : ServiceState :=
  ⟨none, [], 0, [], 0, [], none, 0, []⟩

/-- Shape of the explicit locale argument taken by `_localeWithDefault`
(src lines 220-233): absent covers undefined, null and every other falsy
value; a string (the empty string is falsy in JS and is handled by the
absent branch of the code); an array of strings; or any other truthy value,
a shape the function has no branch for. -/
inductive LocaleArg where
  | absent
  | strOf (s : String)
  | arrOf (ls : List String)
  | otherShape
deriving DecidableEq, Repr

/-- Ember `makeArray` applied to a string wraps it in a one-element
array. -/
def makeArrayStr (s : String) : List String := [s]

/-- The private `_localeWithDefault` (src lines 220-233).  A falsy argument
yields `get(this, '_locale') || []`; a string is wrapped by `makeArray` and
normalized; an array is normalized element-wise, order preserved.  Any
other truthy shape matches no branch, so the JS function silently returns
undefined: that is the `none` result. -/
def localeWithDefault (st : ServiceState) : LocaleArg → Option (List String)
  | .absent => some (st.localeList.getD [])
  | .strOf s =>
    if s = "" then some (st.localeList.getD [])
    else some ((makeArrayStr s).map normalizeLocale)
  | .arrOf ls => some (ls.map normalizeLocale)
  | .otherShape => none

/-- The for-loop of `lookup` (src lines 152-159): walk the candidate
locales in order; return the first translation that is not undefined (an
empty string counts); fall through to undefined. -/
def lookupLoop (mm : MessagesMap) (key : String) : List String → Option String
  | [] => none
  | l :: rest =>
    match Messages.look ((MessagesMap.look mm l).getD []) key with
    | some t => some t
    | none => lookupLoop mm key rest

/-- Public `lookup` (src lines 149-160).  When `_localeWithDefault` returns
undefined (a truthy argument that is neither string nor array), the JS loop
header reads `.length` of undefined and throws a TypeError: that case is
the error branch. -/
def lookup (st : ServiceState) (key : String) (localeName : LocaleArg) :
    Except Unit (Option String) :=
  match localeWithDefault st localeName with
  | some localeNames => .ok (lookupLoop st.messagesMap key localeNames)
  | none => .error ()

/-- JS truthiness of a looked-up translation value: undefined and the empty
string are falsy, every other string is truthy. -/
def truthyVal : Option String → Bool
  | some s => !(s == "")
  | none => false

/-- Public `exists` (src lines 184-190): resolve the candidate locales,
assert the result is an array with at least one element (Ember `assert`
modelled as a thrown contract error), then test whether some candidate has
a truthy value for the key. -/
def existsKey (st : ServiceState) (key : String) (localeName : LocaleArg) :
    Except Unit Bool :=
  match localeWithDefault st localeName with
  | none => .error ()
  | some localeNames =>
    if localeNames.isEmpty then .error ()
    else .ok (localeNames.any (fun l =>
      truthyVal (Messages.look ((MessagesMap.look st.messagesMap l).getD []) key)))

/-- Argument to the locale setter / `setLocale`: either a single locale
string or an array of locale strings. -/
inductive LocaleInput where
  | one (s : String)
  | many (ls : List String)
deriving DecidableEq, Repr

/-- Ember `makeArray`: wraps a bare string, leaves an array unchanged. -/
def LocaleInput.makeArray : LocaleInput → List String
  | .one s => [s]
  | .many ls => ls

/-- JS truthiness of the `setLocale` argument: an empty string is falsy. -/
def LocaleInput.truthy : LocaleInput → Bool
  | .one s => !(s == "")
  | .many _ => true

/-- Ember runloop `cancel(this._timer)` (src line 43): removes the stored
scheduled timer from the active set; a no-op when `_timer` is null. -/
def cancelTimer (st : ServiceState) : ServiceState :=
  match st.timerHandle with
  | some t => { st with timers := st.timers.filter (fun x => x != t) }
  | none => st

/-- The computed `locale` setter (src lines 38-51): normalize the proposed
value with `makeArray` and `normalizeLocale`; when it is element-wise equal
to the stored `_locale`, nothing happens; otherwise store it immediately,
cancel the pending notification timer and schedule a fresh one with Ember
`next` (a fresh timer id, stored in `_timer`). -/
def localeSetter (st : ServiceState) (inp : LocaleInput) : ServiceState :=
  let proposed := inp.makeArray.map normalizeLocale
  if isArrayEqual proposed st.localeList then st
  else
    let st1 := { st with localeList := some proposed }
    let st2 := cancelTimer st1
    { st2 with timers := st2.timers ++ [st2.nextTimer],
               timerHandle := some st2.nextTimer,
               nextTimer := st2.nextTimer + 1 }

/-- Public `setLocale` (src lines 193-200): asserts the argument is truthy,
then assigns the `locale` computed property, which runs the setter. -/
def setLocale (st : ServiceState) (inp : LocaleInput) : Except Unit ServiceState :=
  if inp.truthy then .ok (localeSetter st inp) else .error ()

/-- Elapse of the scheduled runloop turn: every still-active timer fires.
Each timer in this service is the notification closure of src lines 44-47,
which triggers the localeChanged event and reads `this._locale` at fire
time. -/
def flush (st : ServiceState) : ServiceState :=
  { st with timers := [],
            fired := st.fired ++ st.timers.map (fun _ => st.localeList.getD []) }

/-- At most one outstanding scheduled notification, and when one is
outstanding the stored `_timer` handle is exactly its id. -/
def timerInv (st : ServiceState) : Prop :=
  st.timers = [] ∨ ∃ t, st.timers = [t] ∧ st.timerHandle = some t

/-- The memoized `createIntl` set up in `init` (src lines 115-127).  On a
cache miss for the argument pair it calls the external engine constructor,
which records the locale, the formats, and the snapshot of
`this._messagesMap[locale]` taken at construction time; the handle is then
cached.  On a hit the cached handle is returned and nothing is
constructed.  The argument-pair keying models the `fast-memoize`
wrapper. -/
def createIntlMemo (st : ServiceState) (locale : String) (formats : Formats) :
    Engine × ServiceState :=
  match cacheFind st.intlCache locale formats with
  | some eng => (eng, st)
  | none =>
    let eng : Engine :=
      ⟨st.nextEngineId, locale, formats, MessagesMap.look st.messagesMap locale⟩
    (eng, { st with intlCache := st.intlCache ++ [((locale, formats), eng)],
                    nextEngineId := st.nextEngineId + 1 })

/-- The argument `getIntl` receives: the JS code checks `Array.isArray`. -/
inductive LocaleRef where
  | one (s : String)
  | many (ls : List String)
deriving DecidableEq, Repr

/-- Private `getIntl` (src lines 165-167):
`createIntl(Array.isArray(locale) ? locale[0] : locale, this.formats)`.
With an empty array the JS passes `undefined` to the external `createIntl`;
that call is outside the modelled engine construction and yields `none`
(no engine handle). -/
def getIntl (st : ServiceState) (locale : LocaleRef) : Option (Engine × ServiceState) :=
  match locale with
  | .one s => some (createIntlMemo st s st.formats)
  | .many (l :: _) => some (createIntlMemo st l st.formats)
  | .many [] => none

/-- Nested translation payload: a tree of string-or-nested-mapping
nodes. -/
inductive NestedStructure where
  | leaf (s : String)
  | node (entries : List (String × NestedStructure))

/-- Dot-joined path keys: the key itself at top level, parent.key below. -/
def joinKey (pfx k : String) : String :=
  if pfx = "" then k else pfx ++ "." ++ k

mutual

/-- Flattening of one payload node under a path so far. -/
def flattenAux (pfx : String) : NestedStructure → Messages
  | .leaf s => [(pfx, s)]
  | .node es => flattenEntries pfx es

/-- Flattening of the entries of a mapping node, in order. -/
def flattenEntries (pfx : String) : List (String × NestedStructure) → Messages
  | [] => []
  | (k, v) :: rest => flattenAux (joinKey pfx k) v ++ flattenEntries pfx rest

end

/-- Modelled from the spec: `flatten` (the -private utils module
flatten.ts) is repository code not under src/.  Spec section 4.2: flattens
a nested payload, a tree of string-or-nested-mapping nodes, into a flat
mapping of dot-joined-path to leaf string, deterministically and in
traversal order. -/
def flatten (payload : List (String × NestedStructure)) : Messages :=
  flattenEntries "" payload

/-- Public `addTranslations` (src lines 207-209):
`this._messagesMap[normalizeLocale(localeName)] = flatten(payload)` — the
locale's whole entry is replaced by the flattening of the new payload. -/
def addTranslations (st : ServiceState) (localeName : String)
    (payload : List (String × NestedStructure)) : ServiceState :=
  { st with messagesMap :=
      MessagesMap.setKey st.messagesMap (normalizeLocale localeName) (flatten payload) }

/-- Public `translationsFor` (src lines 216-218). -/
def translationsFor (st : ServiceState) (localeName : String) : Option Messages :=
  MessagesMap.look st.messagesMap (normalizeLocale localeName)

/-- Error codes reported by the external formatjs engine
(`IntlErrorCode`). -/
inductive IntlErrorCode where
  | FORMAT_ERROR
  | UNSUPPORTED_FORMATTER
  | INVALID_CONFIG
  | MISSING_DATA
  | MISSING_TRANSLATION
deriving DecidableEq, Repr

/-- An engine-reported error: a code and an opaque payload distinguishing
individual error objects. -/
structure IntlError where
  code : IntlErrorCode
  payload : String
deriving DecidableEq, Repr

/-- The engine error callback `onIntlError` (src lines 137-141): rethrows
every error whose code is not MISSING_TRANSLATION, and swallows
missing-translation errors (returns without effect). -/
def onIntlError (err : IntlError) : Except IntlError Unit :=
  if err.code != IntlErrorCode.MISSING_TRANSLATION then .error err else .ok ()

/-- The five formatting entry points built by `createFormatterProxy`
(src lines 66-78). -/
inductive FormatterName where
  | message
  | relative
  | number
  | time
  | date
deriving DecidableEq, Repr

/-- Failure condition of a formatting call. -/
inductive FmtError where
  | noLocaleConfigured
deriving DecidableEq, Repr

/-- Candidate-locale resolution done inside `serviceFormatterProxy`
(src lines 266-270): a truthy per-call `formatOptions.locale` goes through
`_localeWithDefault`, otherwise the active-locale list `get(this,
'locale')` is used as is. -/
def resolvedLocale (st : ServiceState) (optArg : Option LocaleArg) :
    Option (List String) :=
  match optArg with
  | some la => localeWithDefault st la
  | none => st.localeList

/-- Modelled from the spec: the Formatter classes (the -private formatters
modules) are repository code not under src/.  Spec section 4.5: each
`format` selects the primary candidate (the first element of the candidate
sequence), fails with a NoLocaleConfigured condition when the candidate
sequence is empty or absent, and otherwise obtains the engine through
`getIntl`. -/
def formatterFormat (st : ServiceState) (locale : Option (List String)) :
    Except FmtError (Engine × ServiceState) :=
  match locale with
  | some (l :: rest) =>
    match getIntl st (.many (l :: rest)) with
    | some pr => .ok pr
    | none => .error .noLocaleConfigured
  | _ => .error .noLocaleConfigured

/-- The `serviceFormatterProxy` closure shared by the five formatting entry
points (src lines 262-274): resolve the candidate locales, then delegate to
the named formatter's `format`. -/
def serviceFormatterProxy (st : ServiceState) (name : FormatterName)
    (optArg : Option LocaleArg) : Except FmtError (Engine × ServiceState) :=
  match name with
  | _ => formatterFormat st (resolvedLocale st optArg)

/-- Public `formatMessage` (src line 69). -/
def formatMessage (st : ServiceState) (optArg : Option LocaleArg) :=
  serviceFormatterProxy st .message optArg

/-- Public `formatRelative` (src line 66). -/
def formatRelative (st : ServiceState) (optArg : Option LocaleArg) :=
  serviceFormatterProxy st .relative optArg

/-- Public `formatNumber` (src line 72). -/
def formatNumber (st : ServiceState) (optArg : Option LocaleArg) :=
  serviceFormatterProxy st .number optArg

/-- Public `formatTime` (src line 75). -/
def formatTime (st : ServiceState) (optArg : Option LocaleArg) :=
  serviceFormatterProxy st .time optArg

/-- Public `formatDate` (src line 78). -/
def formatDate (st : ServiceState) (optArg : Option LocaleArg) :=
  serviceFormatterProxy st .date optArg

/-- Sample state: active locale en-us; en-us maps greeting to the empty
string and hello to Hi; fr-fr maps farewell to Salut. -/
def stA : ServiceState :=
  ⟨some ["en-us"],
   [("en-us", [("greeting", ""), ("hello", "Hi")]),
    ("fr-fr", [("farewell", "Salut")])],
   0, [], 0, [], none, 0, []⟩

theorem lookupLoop_eq_findSome? (mm : MessagesMap) (key : String) (ls : List String) :
    lookupLoop mm key ls =
      ls.findSome? (fun l => Messages.look ((MessagesMap.look mm l).getD []) key) := by
  induction ls with
  | nil => rfl
  | cons l rest ih =>
    simp only [lookupLoop, List.findSome?]
    cases Messages.look ((MessagesMap.look mm l).getD []) key <;> simp [ih]

/-- C1: for every key and every candidate-locale sequence, lookup returns
the value of the key in the first candidate locale whose message map
defines it — `List.findSome?` of the per-locale defined-value reads, so a
present-but-empty-string translation counts as found — and returns
undefined when no candidate defines it, the empty candidate sequence
included. -/
theorem lookup_first_defined_wins (st : ServiceState) (key : String) (cs : List String) :
    lookup st key (.arrOf cs) =
      .ok ((cs.map normalizeLocale).findSome? (fun l =>
        Messages.look ((MessagesMap.look st.messagesMap l).getD []) key))
    ∧ lookup st key (.arrOf []) = .ok none := by
  constructor
  · simp only [lookup, localeWithDefault, lookupLoop_eq_findSome?]
  · rfl

/-- C2: setting the active locale to a sequence that is element-wise equal
(after normalization) to the active one is a no-op: the state is unchanged
— nothing is stored, no notification is scheduled — and flushing the
runloop fires no notification beyond what was already pending before the
call. -/
theorem locale_setter_noop (st : ServiceState) (inp : LocaleInput) (L1 : List String)
    (hact : st.localeList = some L1)
    (heq : inp.makeArray.map normalizeLocale = L1) :
    localeSetter st inp = st
    ∧ (flush (localeSetter st inp)).fired = (flush st).fired := by
  have h : isArrayEqual (inp.makeArray.map normalizeLocale) st.localeList = true := by
    rw [hact, heq]; simp [isArrayEqual]
  have hid : localeSetter st inp = st := by
    simp [localeSetter, h]
  exact ⟨hid, by rw [hid]⟩

/-- C2 witness: with active locale en-us, setting EN_US (equal after
normalization) leaves the state untouched. -/
theorem locale_setter_noop_witness :
    localeSetter stA (.one "EN_US") = stA
    ∧ (flush (localeSetter stA (.one "EN_US"))).fired = (flush stA).fired :=
  locale_setter_noop stA (.one "EN_US") ["en-us"] rfl (by decide)

/-- C7 counterexample: at the concrete input otherShape (a truthy explicit
locale argument that is neither string nor array), candidate-locale
resolution silently returns undefined — no candidates and no error of any
kind — so it does not fail with an InvalidArgument error as claimed. -/
theorem localeWithDefault_other_cex :
    localeWithDefault emptyState .otherShape = none := rfl

/-- C7 amended: for every explicit-locale argument that is neither absent,
a string, nor a sequence, candidate-locale resolution silently returns
undefined (no candidate sequence) rather than failing with an
InvalidArgument error; the callers then fail with unrelated generic errors
(lookup with a TypeError from the loop header, exists with the
locale-unset assertion). -/
theorem localeWithDefault_other_undefined (st : ServiceState) (key : String) :
    localeWithDefault st .otherShape = none
    ∧ lookup st key .otherShape = .error ()
    ∧ existsKey st key .otherShape = .error () :=
  ⟨rfl, rfl, rfl⟩

/-- C8: the engine error callback swallows exactly the missing-translation
error kind — it returns without effect iff the reported code is
MISSING_TRANSLATION — and re-throws every other engine-reported error
unchanged to the caller. -/
theorem onIntlError_swallows_only_missing (err : IntlError) :
    (onIntlError err = .ok () ↔ err.code = IntlErrorCode.MISSING_TRANSLATION)
    ∧ (err.code ≠ IntlErrorCode.MISSING_TRANSLATION → onIntlError err = .error err) := by
  refine ⟨⟨fun h => ?_, fun h => ?_⟩, fun h => ?_⟩
  · by_contra hne
    simp [onIntlError, hne] at h
  · simp [onIntlError, h]
  · simp [onIntlError, h]

/-- C8 witness: a missing-translation error is swallowed; a format error is
re-thrown unchanged. -/
theorem onIntlError_witness :
    onIntlError ⟨IntlErrorCode.MISSING_TRANSLATION, "missing key"⟩ = .ok ()
    ∧ onIntlError ⟨IntlErrorCode.FORMAT_ERROR, "bad pattern"⟩
        = .error ⟨IntlErrorCode.FORMAT_ERROR, "bad pattern"⟩ :=
  ⟨(onIntlError_swallows_only_missing _).1.mpr rfl,
   (onIntlError_swallows_only_missing _).2 (by decide)⟩

theorem localeSetter_same (s : ServiceState) (i : LocaleInput)
    (hc : isArrayEqual (i.makeArray.map normalizeLocale) s.localeList = true) :
    localeSetter s i = s := by
  simp [localeSetter, hc]

theorem localeSetter_change_nil (s : ServiceState) (i : LocaleInput)
    (hc : isArrayEqual (i.makeArray.map normalizeLocale) s.localeList = false)
    (h : s.timers = []) :
    localeSetter s i =
      { s with localeList := some (i.makeArray.map normalizeLocale),
               timers := [s.nextTimer],
               timerHandle := some s.nextTimer,
               nextTimer := s.nextTimer + 1 } := by
  cases hth : s.timerHandle <;>
    simp [localeSetter, cancelTimer, hc, hth, h]

theorem localeSetter_change_single (s : ServiceState) (i : LocaleInput) (t : Nat)
    (hc : isArrayEqual (i.makeArray.map normalizeLocale) s.localeList = false)
    (h : s.timers = [t]) (hth : s.timerHandle = some t) :
    localeSetter s i =
      { s with localeList := some (i.makeArray.map normalizeLocale),
               timers := [s.nextTimer],
               timerHandle := some s.nextTimer,
               nextTimer := s.nextTimer + 1 } := by
  simp [localeSetter, cancelTimer, hc, hth, h, List.filter]

theorem timerInv_localeSetter (s : ServiceState) (i : LocaleInput)
    (h : timerInv s) : timerInv (localeSetter s i) := by
  by_cases hc : isArrayEqual (i.makeArray.map normalizeLocale) s.localeList = true
  · rw [localeSetter_same s i hc]; exact h
  · rcases h with htm | ⟨t, htm, hth⟩
    · rw [localeSetter_change_nil s i (by simpa using hc) htm]
      exact Or.inr ⟨s.nextTimer, rfl, rfl⟩
    · rw [localeSetter_change_single s i t (by simpa using hc) htm hth]
      exact Or.inr ⟨s.nextTimer, rfl, rfl⟩

/-- C3: the notification pipeline coalesces.  Calls to the setter preserve
the invariant that at most one notification is pending (a changing call
cancels the previously scheduled one and schedules a fresh one); and two
setLocale calls in rapid succession — before the scheduled runloop turn
elapses — leave exactly one pending timer, so the elapsing turn fires
exactly one localeChanged notification, carrying the final active-locale
value, and a further turn fires nothing. -/
theorem locale_setter_coalesces (st : ServiceState) (a b : LocaleInput)
    (ha : a.truthy = true) (hb : b.truthy = true)
    (hidle : st.timers = [])
    (hchange : isArrayEqual (a.makeArray.map normalizeLocale) st.localeList = false) :
    setLocale st a = .ok (localeSetter st a)
    ∧ setLocale (localeSetter st a) b = .ok (localeSetter (localeSetter st a) b)
    ∧ (localeSetter (localeSetter st a) b).timers.length = 1
    ∧ (flush (localeSetter (localeSetter st a) b)).fired
        = st.fired ++ [(localeSetter (localeSetter st a) b).localeList.getD []]
    ∧ (flush (flush (localeSetter (localeSetter st a) b))).fired
        = (flush (localeSetter (localeSetter st a) b)).fired
    ∧ (∀ s : ServiceState, ∀ i : LocaleInput, timerInv s → timerInv (localeSetter s i)) := by
  refine ⟨by simp [setLocale, ha], by simp [setLocale, hb], ?_⟩
  have h1 := localeSetter_change_nil st a hchange hidle
  by_cases hb2 : b.makeArray.map normalizeLocale = a.makeArray.map normalizeLocale
  · have h2 : localeSetter (localeSetter st a) b = localeSetter st a := by
      rw [h1]
      exact localeSetter_same _ b (by simp [isArrayEqual, hb2])
    rw [h2, h1]
    refine ⟨rfl, ?_, ?_, fun s i h => timerInv_localeSetter s i h⟩ <;> simp [flush]
  · have h2 := localeSetter_change_single (localeSetter st a) b st.nextTimer
      (by rw [h1]; simp [isArrayEqual, hb2]) (by rw [h1]) (by rw [h1])
    rw [h2, h1]
    refine ⟨rfl, ?_, ?_, fun s i h => timerInv_localeSetter s i h⟩ <;> simp [flush]

/-- C3 witness: from a fresh idle state, calling setLocale with en,fr twice
in the same turn leaves exactly one pending timer, and the elapsing turn
fires exactly one notification carrying the final value. -/
theorem locale_setter_coalesces_witness :
    (localeSetter (localeSetter emptyState (LocaleInput.many ["en", "fr"]))
        (LocaleInput.many ["en", "fr"])).timers.length = 1
    ∧ (flush (localeSetter (localeSetter emptyState (LocaleInput.many ["en", "fr"]))
          (LocaleInput.many ["en", "fr"]))).fired
        = emptyState.fired ++
            [(localeSetter (localeSetter emptyState (LocaleInput.many ["en", "fr"]))
                (LocaleInput.many ["en", "fr"])).localeList.getD []] := by
  have h := locale_setter_coalesces emptyState (LocaleInput.many ["en", "fr"])
    (LocaleInput.many ["en", "fr"]) rfl rfl rfl rfl
  exact ⟨h.2.2.1, h.2.2.2.1⟩

theorem cacheFind_append (c1 c2 : EngineCache) (l : String) (f : Formats) :
    cacheFind (c1 ++ c2) l f =
      match cacheFind c1 l f with
      | some e => some e
      | none => cacheFind c2 l f := by
  induction c1 with
  | nil => rfl
  | cons hd rest ih =>
    obtain ⟨⟨l0, f0⟩, e⟩ := hd
    by_cases hk : l0 = l ∧ f0 = f <;> simp [cacheFind, hk, ih]

/-- C4: the engine cache is a pure memoization.  After a first call
constructs the engine for an uncached (locale, formats) pair, an identical
second call returns the very same handle with the state (hence the
construction counter) untouched, so the constructor ran at most once for
the pair; a call with a different (uncached) locale yields a distinct
handle and does not invalidate the existing entry, which still maps to the
first handle. -/
theorem createIntlMemo_hit (s : ServiceState) (l : String) (f : Formats) (e : Engine)
    (h : cacheFind s.intlCache l f = some e) :
    createIntlMemo s l f = (e, s) := by
  simp [createIntlMemo, h]

theorem createIntlMemo_miss (s : ServiceState) (l : String) (f : Formats)
    (h : cacheFind s.intlCache l f = none) :
    createIntlMemo s l f =
      (⟨s.nextEngineId, l, f, MessagesMap.look s.messagesMap l⟩,
       { s with
           intlCache := s.intlCache ++
             [((l, f), ⟨s.nextEngineId, l, f, MessagesMap.look s.messagesMap l⟩)],
           nextEngineId := s.nextEngineId + 1 }) := by
  simp [createIntlMemo, h]

theorem createIntl_memoized (st : ServiceState) (l l' : String) (f : Formats)
    (h1 : cacheFind st.intlCache l f = none)
    (h2 : cacheFind st.intlCache l' f = none)
    (hne : l ≠ l') :
    (createIntlMemo (createIntlMemo st l f).2 l f).1 = (createIntlMemo st l f).1
    ∧ (createIntlMemo (createIntlMemo st l f).2 l f).2 = (createIntlMemo st l f).2
    ∧ (createIntlMemo (createIntlMemo st l f).2 l' f).1 ≠ (createIntlMemo st l f).1
    ∧ cacheFind (createIntlMemo (createIntlMemo st l f).2 l' f).2.intlCache l f
        = some (createIntlMemo st l f).1 := by
  have hc1 := createIntlMemo_miss st l f h1
  have hhit : cacheFind (createIntlMemo st l f).2.intlCache l f
      = some (createIntlMemo st l f).1 := by
    rw [hc1]
    simp [cacheFind_append, h1, cacheFind]
  have hmiss : cacheFind (createIntlMemo st l f).2.intlCache l' f = none := by
    rw [hc1]
    simp [cacheFind_append, h2, cacheFind, hne]
  have h2nd := createIntlMemo_hit _ l f _ hhit
  have h3rd := createIntlMemo_miss _ l' f hmiss
  refine ⟨by rw [h2nd], by rw [h2nd], ?_, ?_⟩
  · have hid3 : ((createIntlMemo (createIntlMemo st l f).2 l' f).1).engId
        = st.nextEngineId + 1 := by
      rw [h3rd]
      simp [hc1]
    have hid1 : ((createIntlMemo st l f).1).engId = st.nextEngineId := by
      rw [hc1]
    intro hcontra
    rw [hcontra, hid1] at hid3
    omega
  · rw [h3rd]
    simp only [hc1]
    simp [cacheFind_append, h1, cacheFind]

/-- C4 witness: on a fresh state, repeated calls for en-us share one
handle, and a call for fr-fr yields a different handle while the en-us
entry survives. -/
theorem createIntl_memoized_witness :
    (createIntlMemo (createIntlMemo stA "en-us" 0).2 "en-us" 0).1
        = (createIntlMemo stA "en-us" 0).1
    ∧ (createIntlMemo (createIntlMemo stA "en-us" 0).2 "fr-fr" 0).1
        ≠ (createIntlMemo stA "en-us" 0).1 := by
  have h := createIntl_memoized stA "en-us" "fr-fr" 0 rfl rfl (by decide)
  exact ⟨h.1, h.2.2.1⟩

/-- C5: exists fails with the assertion error iff the resolved
candidate-locale sequence is empty (it never silently returns false
there); on a non-empty resolution it returns true iff some candidate has a
truthy (non-empty) value for the key; and on a present-but-empty-string
translation exists answers false while lookup on the same input treats the
key as found. -/
theorem existsKey_spec (st : ServiceState) (key : String) (la : LocaleArg) :
    (∀ ls, localeWithDefault st la = some ls →
      ((existsKey st key la = .error ()) ↔ ls = [])
      ∧ (ls ≠ [] → existsKey st key la
          = .ok (ls.any (fun l =>
              truthyVal (Messages.look ((MessagesMap.look st.messagesMap l).getD []) key)))))
    ∧ (∀ l, Messages.look
          ((MessagesMap.look st.messagesMap (normalizeLocale l)).getD []) key = some "" →
        existsKey st key (.arrOf [l]) = .ok false
        ∧ lookup st key (.arrOf [l]) = .ok (some "")) := by
  constructor
  · intro ls hres
    constructor
    · constructor
      · intro herr
        by_contra hne
        simp [existsKey, hres, List.isEmpty_iff, hne] at herr
      · intro hnil
        subst hnil
        simp [existsKey, hres]
    · intro hne
      simp [existsKey, hres, List.isEmpty_iff, hne]
  · intro l hval
    constructor
    · simp [existsKey, localeWithDefault, hval, truthyVal]
    · simp [lookup, localeWithDefault, lookupLoop, hval]

/-- C5 witness: on stA the empty candidate sequence raises the assertion,
and the present-but-empty greeting in en-us makes exists answer false while
lookup finds it. -/
theorem existsKey_spec_witness :
    existsKey stA "greeting" (.arrOf []) = .error ()
    ∧ existsKey stA "greeting" (.arrOf ["EN_US"]) = .ok false
    ∧ lookup stA "greeting" (.arrOf ["EN_US"]) = .ok (some "") := by
  refine ⟨?_, ?_, ?_⟩
  · exact ((existsKey_spec stA "greeting" (.arrOf [])).1 [] rfl).1.mpr rfl
  · exact ((existsKey_spec stA "greeting" (.arrOf ["EN_US"])).2 "EN_US" (by decide)).1
  · exact ((existsKey_spec stA "greeting" (.arrOf ["EN_US"])).2 "EN_US" (by decide)).2

theorem look_setKey_self (mm : MessagesMap) (k : String) (v : Messages) :
    MessagesMap.look (MessagesMap.setKey mm k v) k = some v := by
  induction mm with
  | nil => simp [MessagesMap.setKey, MessagesMap.look]
  | cons hd rest ih =>
    obtain ⟨k0, v0⟩ := hd
    by_cases hk : k0 = k <;> simp [MessagesMap.setKey, MessagesMap.look, hk, ih]

theorem setKey_setKey (mm : MessagesMap) (k : String) (v v' : Messages) :
    MessagesMap.setKey (MessagesMap.setKey mm k v) k v'
      = MessagesMap.setKey mm k v' := by
  induction mm with
  | nil => simp [MessagesMap.setKey]
  | cons hd rest ih =>
    obtain ⟨k0, v0⟩ := hd
    by_cases hk : k0 = k <;> simp [MessagesMap.setKey, hk, ih]

/-- C6: addTranslations replaces wholesale.  After adding payload p1 and
then payload p2 for the same locale, the store entry for the normalized
locale is exactly the flattening of p2 alone (no merge with p1); and
adding the same payload twice leaves the state exactly as adding it once
(idempotence). -/
theorem addTranslations_replaces (st : ServiceState) (l : String)
    (p1 p2 : List (String × NestedStructure)) :
    MessagesMap.look
        ((addTranslations (addTranslations st l p1) l p2).messagesMap)
        (normalizeLocale l)
      = some (flatten p2)
    ∧ addTranslations (addTranslations st l p1) l p1 = addTranslations st l p1 := by
  constructor
  · simp [addTranslations, setKey_setKey, look_setKey_self]
  · simp [addTranslations, setKey_setKey]

/-- C9: every formatting entry point — the proxy shared by formatMessage,
formatDate, formatTime, formatNumber and formatRelative — selects the first
element of the resolved candidate-locale sequence as the primary locale
(the engine is fetched for exactly that locale) and fails with the
NoLocaleConfigured condition when the candidate sequence is empty. -/
theorem formatter_primary_or_fails (st : ServiceState) (name : FormatterName)
    (optArg : Option LocaleArg) :
    (resolvedLocale st optArg = some [] →
      serviceFormatterProxy st name optArg = .error .noLocaleConfigured)
    ∧ (∀ l rest, resolvedLocale st optArg = some (l :: rest) →
        serviceFormatterProxy st name optArg = .ok (createIntlMemo st l st.formats)) := by
  constructor
  · intro hres
    cases name <;> simp [serviceFormatterProxy, formatterFormat, hres]
  · intro l rest hres
    cases name <;> simp [serviceFormatterProxy, formatterFormat, hres, getIntl]

/-- C9 witness: with an explicit empty candidate array every entry point
fails with NoLocaleConfigured, and with candidates en,fr the engine is the
one for the primary locale en. -/
theorem formatter_primary_or_fails_witness :
    formatMessage stA (some (.arrOf [])) = .error .noLocaleConfigured
    ∧ formatDate stA (some (.arrOf [])) = .error .noLocaleConfigured
    ∧ formatMessage stA (some (.arrOf ["en", "fr"]))
        = .ok (createIntlMemo stA "en" stA.formats) := by
  refine ⟨?_, ?_, ?_⟩
  · exact (formatter_primary_or_fails stA .message (some (.arrOf []))).1 rfl
  · exact (formatter_primary_or_fails stA .date (some (.arrOf []))).1 rfl
  · exact (formatter_primary_or_fails stA .message
      (some (.arrOf ["en", "fr"]))).2 "en" ["fr"] (by decide)

/-- C10: engine messages are a construction-time snapshot.  Construct the
engine for a locale (uncached); its messages are the store's map for that
locale at construction time.  A later addTranslations call for the same
locale replaces the store's entry with the new flattening, yet a repeated
engine fetch still returns the identical memoized handle, whose messages
are the old snapshot — so when the new flattening differs from the
snapshot, formatting through the cached engine does not observe the new
translations. -/
theorem engine_snapshot_frame (st : ServiceState) (ln : String) (f : Formats)
    (p : List (String × NestedStructure))
    (hmiss : cacheFind st.intlCache (normalizeLocale ln) f = none) :
    (createIntlMemo (addTranslations (createIntlMemo st (normalizeLocale ln) f).2 ln p)
        (normalizeLocale ln) f).1
      = (createIntlMemo st (normalizeLocale ln) f).1
    ∧ (createIntlMemo st (normalizeLocale ln) f).1.engMessages
        = MessagesMap.look st.messagesMap (normalizeLocale ln)
    ∧ MessagesMap.look
        (addTranslations (createIntlMemo st (normalizeLocale ln) f).2 ln p).messagesMap
        (normalizeLocale ln)
      = some (flatten p)
    ∧ (MessagesMap.look st.messagesMap (normalizeLocale ln) ≠ some (flatten p) →
        (createIntlMemo (addTranslations (createIntlMemo st (normalizeLocale ln) f).2 ln p)
            (normalizeLocale ln) f).1.engMessages
          ≠ some (flatten p)) := by
  have hc1 := createIntlMemo_miss st (normalizeLocale ln) f hmiss
  have hcacheeq :
      (addTranslations (createIntlMemo st (normalizeLocale ln) f).2 ln p).intlCache
        = (createIntlMemo st (normalizeLocale ln) f).2.intlCache := rfl
  have hhit : cacheFind
      (addTranslations (createIntlMemo st (normalizeLocale ln) f).2 ln p).intlCache
      (normalizeLocale ln) f
      = some (createIntlMemo st (normalizeLocale ln) f).1 := by
    rw [hcacheeq, hc1]
    simp [cacheFind_append, hmiss, cacheFind]
  have hsame := createIntlMemo_hit _ (normalizeLocale ln) f _ hhit
  have hfst : (createIntlMemo (addTranslations
      (createIntlMemo st (normalizeLocale ln) f).2 ln p) (normalizeLocale ln) f).1
      = (createIntlMemo st (normalizeLocale ln) f).1 := by
    rw [hsame]
  have hmsg : (createIntlMemo st (normalizeLocale ln) f).1.engMessages
      = MessagesMap.look st.messagesMap (normalizeLocale ln) := by
    rw [hc1]
  refine ⟨hfst, hmsg, ?_, ?_⟩
  · simp [addTranslations, look_setKey_self]
  · intro hdiff hcontra
    rw [hfst, hmsg] at hcontra
    exact hdiff hcontra

/-- C10 witness: on stA (en-us maps greeting to the empty string), after
constructing the engine for en-us and then replacing the en-us
translations with greeting Hello, the repeated fetch returns the same
handle and its messages are still the original snapshot, not the new
flattening. -/
theorem engine_snapshot_frame_witness :
    (createIntlMemo (addTranslations (createIntlMemo stA (normalizeLocale "en-us") 0).2
        "en-us" [("greeting", NestedStructure.leaf "Hello")]) (normalizeLocale "en-us") 0).1
      = (createIntlMemo stA (normalizeLocale "en-us") 0).1
    ∧ (createIntlMemo (addTranslations (createIntlMemo stA (normalizeLocale "en-us") 0).2
          "en-us" [("greeting", NestedStructure.leaf "Hello")]) (normalizeLocale "en-us") 0).1.engMessages
        ≠ some (flatten [("greeting", NestedStructure.leaf "Hello")]) := by
  have h := engine_snapshot_frame stA "en-us" 0
    [("greeting", NestedStructure.leaf "Hello")] (by decide)
  exact ⟨h.1, h.2.2.2 (by decide)⟩

end EmberIntl
